import Mathlib

/-!
Verification of the goal-based investment planner (`ml-backend/goal_planner.py`,
`ml-backend/api.py`) against its design document.

The Python source is shallowly embedded: prices, returns and weights become
rationals (`ℚ`); `pandas`/`numpy` containers become lists; fallible pipeline
stages become `Except`; the external random-number generator of
`np.random.default_rng(seed)` becomes an explicit stream parameter (it is a
deterministic function of the seed); `math.sqrt` / `np.sqrt` become an explicit
function parameter `sqrt'` (its value never affects the control-flow or
weight-normalisation properties proved here); `np.log` likewise becomes a
parameter `lg` of the metrics stage.
-/

namespace GoalPlanner

/-! ## Static stock symbol lists (`goal_planner.py` lines 39-61) -/

/-- Embeds `get_sp500_tickers` (lines 39-45). -/
def get_sp500_tickers : List String :=
  ["AAPL","MSFT","AMZN","GOOGL","GOOG","META","NVDA","TSLA","BRK-B","UNH","JNJ","V","PG",
   "XOM","JPM","MA","HD","CVX","LLY","ABBV","PEP","KO","MRK","PFE","BAC","AVGO","COST",
   "WMT","MCD","DIS","ADBE","CSCO","ACN","TMO","NFLX","TXN","ABT","CMCSA","VZ","ORCL",
   "CRM","INTC","AMD","QCOM","HON","LOW","LIN","AMT","CAT","NKE","UPS"]

/-- Embeds `get_nasdaq100_tickers` (lines 47-53). -/
def get_nasdaq100_tickers : List String :=
  ["AAPL","MSFT","AMZN","NVDA","GOOG","GOOGL","META","TSLA","PEP","AVGO","COST","ADBE",
   "NFLX","INTC","CSCO","AMD","TXN","QCOM","AMAT","INTU","ISRG","PYPL","MU","LRCX",
   "ADI","REGN","VRTX","MELI","CRWD","PANW","SHOP","WDAY","MRVL","KLAC","CDNS","SNPS",
   "ORLY","MAR","ADSK","TEAM","ZS"]

/-- Embeds `get_ftse100_tickers` (lines 55-61). -/
def get_ftse100_tickers : List String :=
  ["BP.L","SHEL.L","HSBA.L","ULVR.L","AZN.L","GSK.L","RIO.L","GLEN.L","BATS.L","DGE.L",
   "VOD.L","LLOY.L","BARC.L","RKT.L","IMB.L","NG.L","BT-A.L","RR.L","BA.L","TSCO.L",
   "SPX.L","AAL.L","STAN.L","REL.L","ABF.L","AUTO.L","CNA.L","CCEP.L","SMIN.L","INF.L",
   "SGRO.L","EXPN.L","HIK.L","HLMA.L","JD.L","PRU.L","SSE.L","ENT.L","MNDI.L","LAND.L"]

/-! ## Universe Builder (`build_universe`, lines 63-88, and the emptiness check
of `main`, lines 329-331) -/

/-- Embeds the `seen`/`deduped` loop of `build_universe` (lines 81-86):
first occurrence of each ticker wins, later duplicates are skipped. -/
def dedupeSeen : List String → List String → List String
  | _, [] => []
  | seen, t :: ts => if t ∈ seen then dedupeSeen seen ts else t :: dedupeSeen (t :: seen) ts

/-- Embeds the `tickers` accumulation of `build_universe` (lines 71-78): the
concatenation of the membership lists whose toggle is on, S&P500 first, then
FTSE100, then NASDAQ100. -/
def selectedUnion (include_sp500 include_ftse100 include_nasdaq100 : Bool) : List String :=
  (if include_sp500 then get_sp500_tickers else []) ++
  (if include_ftse100 then get_ftse100_tickers else []) ++
  (if include_nasdaq100 then get_nasdaq100_tickers else [])

/-- Embeds `build_universe` (lines 63-88).  The `include_indices` and
`fallback_if_empty` parameters appear in the Python signature (line 63-64) but
are never read in the body; they are kept here to mirror the source. -/
def build_universe (include_sp500 include_ftse100 include_nasdaq100 : Bool)
    (include_indices fallback_if_empty : Bool) : List String :=
  dedupeSeen [] (selectedUnion include_sp500 include_ftse100 include_nasdaq100)

/-- Embeds the universe-build step of `main` (lines 322-331): build the
universe from the CLI toggles and abort (`sys.exit(2)`, modelled as `.error`)
when the resulting ticker list is empty, before any price download happens. -/
def universeCheck (include_sp500 include_ftse100 include_nasdaq100 : Bool)
    (include_indices fallback_if_empty : Bool) : Except String (List String) :=
  let tickers := build_universe include_sp500 include_ftse100 include_nasdaq100
    include_indices fallback_if_empty
  if tickers = [] then .error "Failed to build universe." else .ok tickers

theorem dedupeSeen_nodup_and_disjoint (l : List String) :
    ∀ seen, (dedupeSeen seen l).Nodup ∧ ∀ x ∈ dedupeSeen seen l, x ∉ seen := by
  induction l with
  | nil => intro seen; simp [dedupeSeen]
  | cons t ts ih =>
    intro seen
    by_cases h : t ∈ seen
    · simpa [dedupeSeen, h] using ih seen
    · have iht := ih (t :: seen)
      refine ⟨?_, ?_⟩
      · simp only [dedupeSeen, h, if_false, List.nodup_cons]
        exact ⟨fun hmem => (iht.2 t hmem) (List.mem_cons_self t seen), iht.1⟩
      · intro x hx
        simp only [dedupeSeen, h, if_false, List.mem_cons] at hx
        rcases hx with rfl | hx
        · exact h
        · intro hxseen
          exact (iht.2 x hx) (List.mem_cons_of_mem t hxseen)

theorem dedupeSeen_nil_eq_nil_iff (l : List String) : dedupeSeen [] l = [] ↔ l = [] := by
  cases l with
  | nil => simp [dedupeSeen]
  | cons t ts => simp [dedupeSeen]

theorem selectedUnion_eq_nil_iff (sp ftse nasdaq : Bool) :
    selectedUnion sp ftse nasdaq = [] ↔ sp = false ∧ ftse = false ∧ nasdaq = false := by
  cases sp <;> cases ftse <;> cases nasdaq <;>
    simp [selectedUnion, get_sp500_tickers, get_ftse100_tickers, get_nasdaq100_tickers]

/-- C5: for every combination of membership-list toggles, the universe step of
`main` fails (exit code 2, modelled as `.error`) exactly when all toggles are
off or the union of the selected lists is empty — the failure happens on the
ticker list alone, before any price download — and otherwise it returns the
deduplicated union, which is non-empty and free of duplicates. -/
theorem universeCheck_fails_iff_empty (sp ftse nasdaq indices fallback : Bool) :
    ((universeCheck sp ftse nasdaq indices fallback).isOk = false ↔
      ((sp = false ∧ ftse = false ∧ nasdaq = false) ∨ selectedUnion sp ftse nasdaq = [])) ∧
    ∀ l, universeCheck sp ftse nasdaq indices fallback = .ok l →
      l = dedupeSeen [] (selectedUnion sp ftse nasdaq) ∧ l ≠ [] ∧ l.Nodup := by
  have hcollapse : ((sp = false ∧ ftse = false ∧ nasdaq = false) ∨
      selectedUnion sp ftse nasdaq = []) ↔ selectedUnion sp ftse nasdaq = [] := by
    rw [selectedUnion_eq_nil_iff]; tauto
  by_cases h : dedupeSeen [] (selectedUnion sp ftse nasdaq) = []
  · constructor
    · simp only [universeCheck, build_universe, h, if_pos, hcollapse, Except.isOk,
        Except.toBool]
      rw [← dedupeSeen_nil_eq_nil_iff, h]; simp
    · intro l hl
      simp only [universeCheck, build_universe, h, if_pos] at hl
      cases hl
  · constructor
    · simp only [universeCheck, build_universe, h, if_neg, not_false_iff, Except.isOk,
        Except.toBool, hcollapse]
      rw [← dedupeSeen_nil_eq_nil_iff]
      simp [h]
    · intro l hl
      simp only [universeCheck, build_universe, h, if_neg, not_false_iff, Except.ok.injEq] at hl
      subst hl
      exact ⟨rfl, h, (dedupeSeen_nodup_and_disjoint _ []).1⟩

/-- Witness for C5 at concrete toggles: with only the S&P500 toggle on the
universe step returns exactly the S&P500 list, non-empty and duplicate-free. -/
theorem universeCheck_fails_iff_empty_witness :
    get_sp500_tickers = dedupeSeen [] (selectedUnion true false false) ∧
    get_sp500_tickers ≠ [] ∧ get_sp500_tickers.Nodup :=
  (universeCheck_fails_iff_empty true false false true true).2 get_sp500_tickers (by rfl)

/-! ## Metrics Engine (`compute_metrics`, lines 154-173, and the column-count
check of `main`, lines 334-343)

Prices are modelled column-major: a price table is a list of (ticker, column)
pairs, a column being one `Option ℚ` per calendar day (`none` = missing/NaN).
`np.log` is an explicit parameter `lg`; its values never influence which
instruments are usable or whether the stage errors.  The row-level
`dropna(how="all")` of line 165 removes only rows that are missing in every
column, which changes no per-column mean, so it needs no separate model. -/

/-- A single instrument's aligned daily price series; `none` is a missing
value (NaN). -/
abbrev PriceCol := List (Option ℚ)

/-- A price table: one (ticker, column) pair per instrument, columns aligned
on a common calendar. -/
abbrev PriceTable := List (String × PriceCol)

/-- Embeds `np.log(prices / prices.shift(1))` (line 165) for one column: the
day-`t` return is `lg (p_t / p_(t-1))` when both prices are present, missing
otherwise (NaN propagates through `/` and `log`). -/
def logReturns (lg : ℚ → ℚ) (col : PriceCol) : List (Option ℚ) :=
  List.zipWith (fun prev cur => match prev, cur with
    | some a, some b => some (lg (b / a))
    | _, _ => none) col col.tail

/-- Embeds the pandas column mean with NaN skipping (`rets.mean()`, line 167):
the mean of the present values, or missing when no value is present (such
columns are dropped by `rets.dropna(axis=1, how="all")` on line 166). -/
def colMean (rets : List (Option ℚ)) : Option ℚ :=
  let vals := rets.filterMap id
  if vals.length = 0 then none else some (vals.sum / vals.length)

/-- Combines lines 165-167 and 341-342: per-instrument daily mean log return,
keeping exactly the instruments whose return series has at least one present
value (the "usable" instruments that survive `rets.dropna(axis=1, how="all")`
and `mu.dropna()`). -/
def computeMuDaily (lg : ℚ → ℚ) (prices : PriceTable) : List (String × ℚ) :=
  prices.filterMap (fun tc => (colMean (logReturns lg tc.2)).map (fun m => (tc.1, m)))

/-- Annualisation factor of line 169. -/
def TRADING_DAYS : ℚ := 252

/-- Number of instruments that remain usable after metrics computation. -/
def usableCount (lg : ℚ → ℚ) (prices : PriceTable) : Nat :=
  (computeMuDaily lg prices).length

/-- Embeds the metrics step of `main` (lines 334-343): abort with exit code 2
(modelled as `.error`) when the downloaded price table has fewer than 3
columns (`prices.shape[1] < 3`, line 335), otherwise compute the annualised
mean returns restricted to usable instruments.  `compute_metrics` itself
raises nothing, and no check on the number of usable instruments follows. -/
def metricsStage (lg : ℚ → ℚ) (prices : PriceTable) : Except String (List (String × ℚ)) :=
  if prices.length < 3 then .error "Too few valid assets after downloading data."
  else .ok ((computeMuDaily lg prices).map (fun p => (p.1, p.2 * TRADING_DAYS)))

/-- C6 (amended): the metrics step of the pipeline fails exactly when the
price table has fewer than 3 columns — a check made before metrics are
computed; the number of usable instruments remaining afterwards is never
examined. -/
theorem metricsStage_fails_iff_lt_three_columns (lg : ℚ → ℚ) (prices : PriceTable) :
    (metricsStage lg prices).isOk = false ↔ prices.length < 3 := by
  by_cases h : prices.length < 3 <;>
    simp [metricsStage, h, Except.isOk, Except.toBool]

/-- Counterexample to C6 as stated: a three-column table in which instruments
B and C have a single price each (as a freshly listed ticker has after the
forward fill of `download_prices`), so only one usable instrument survives
metrics computation, yet the stage succeeds; conversely a two-column table
with both instruments fully usable is rejected. -/
theorem metricsStage_usable_count_counterexample :
    (metricsStage id [("A", [some 1, some 2, some 4]),
                      ("B", [none, none, some 5]),
                      ("C", [none, none, some 7])]).isOk = true ∧
    usableCount id [("A", [some 1, some 2, some 4]),
                    ("B", [none, none, some 5]),
                    ("C", [none, none, some 7])] = 1 ∧
    (metricsStage id [("A", [some 1, some 2, some 4]),
                      ("B", [some 1, some 3, some 9])]).isOk = false := by
  decide

/-! ## Candidate Ranker (`rank_candidates`, lines 176-198)

`vol` arrives as a positional array and is aligned to `mu`'s index by
`pd.Series(vol, index=mu.index)` (line 187).  `score.sort_values(ascending=False)`
(line 198) uses the default sort kind `quicksort`, which pandas documents as
not stable; the order of equal scores further depends on the pandas version
(its `nargsort` changed how descending order reuses the ascending argsort).
The model below therefore commits to ONE concrete realisation — a stable
ascending sort followed by a reversal — and only permutation-invariant
properties of the output (length, duplicate-freedom, monotone score order) are
asserted of the source; the relative order of equal scores is NOT asserted. -/

/-- Embeds lines 188-197 for one instrument: the Sharpe-like ratio with zero
volatility replaced by NaN (`vol.replace(0, np.nan)`), the risk-dependent
score formula, NaN propagating through arithmetic.  (`replace([np.inf, -np.inf],
np.nan)` has no rational counterpart: infinities cannot arise here.) -/
def scoreValue (risk : String) (m v : ℚ) : Option ℚ :=
  let sharpe : Option ℚ := if v = 0 then none else some (m / v)
  if risk = "conservative" then sharpe.map (fun s => 6/10 * s + 4/10 * (-v))
  else if risk = "balanced" then sharpe.map (fun s => 8/10 * s + 2/10 * (-v))
  else sharpe

/-- The NaN sentinel of `fillna(-1e9)` (line 197). -/
def SENTINEL : ℚ := -(10 ^ 9)

/-- Scores paired with their instrument, in original order (lines 187-197). -/
def scoredList (mu : List (String × ℚ)) (vol : List ℚ) (risk : String) :
    List (String × ℚ) :=
  List.zipWith (fun p v => (p.1, (scoreValue risk p.2 v).getD SENTINEL)) mu vol

/-- Embeds `score.sort_values(ascending=False)` (line 198): stable ascending
sort, then reversal of the order (see the section comment). -/
def sortScoresDescending (l : List (String × ℚ)) : List (String × ℚ) :=
  (List.insertionSort (fun p q => p.2 ≤ q.2) l).reverse

/-- Embeds `rank_candidates` (lines 176-198): sort descending, keep the top
`max_candidates`, return the instrument identifiers. -/
def rank_candidates (mu : List (String × ℚ)) (vol : List ℚ) (risk : String)
    (max_candidates : Nat) : List String :=
  ((sortScoresDescending (scoredList mu vol risk)).take max_candidates).map Prod.fst

theorem scoredList_names_sublist (mu : List (String × ℚ)) (vol : List ℚ) (risk : String) :
    ((scoredList mu vol risk).map Prod.fst).Sublist (mu.map Prod.fst) := by
  induction mu generalizing vol with
  | nil => simp [scoredList]
  | cons p ps ih =>
    cases vol with
    | nil => simp [scoredList]
    | cons v vs =>
      simp only [scoredList, List.zipWith_cons_cons, List.map_cons]
      exact List.Sublist.cons₂ p.1 (ih vs)

theorem sortScoresDescending_perm (l : List (String × ℚ)) :
    (sortScoresDescending l).Perm l :=
  (List.reverse_perm _).trans (List.perm_insertionSort _ l)

/-- Provable part of C7: `rank_candidates` returns `min max_candidates |bundle|`
identifiers without duplicates, ordered by non-increasing score.  (These
clauses hold for any realisation of the sort; the tie-order clause of C7 is
library-version dependent and is not asserted.) -/
theorem rank_candidates_spec (mu : List (String × ℚ)) (vol : List ℚ) (risk : String)
    (mc : Nat) (hlen : vol.length = mu.length) (hnodup : (mu.map Prod.fst).Nodup) :
    (rank_candidates mu vol risk mc).length = min mc mu.length ∧
    (rank_candidates mu vol risk mc).Nodup ∧
    ((sortScoresDescending (scoredList mu vol risk)).take mc).Pairwise
      (fun p q => q.2 ≤ p.2) ∧
    rank_candidates mu vol risk mc =
      ((List.insertionSort (fun p q => p.2 ≤ q.2)
        (scoredList mu vol risk)).reverse.take mc).map Prod.fst := by
  have hperm := sortScoresDescending_perm (scoredList mu vol risk)
  have hslen : (scoredList mu vol risk).length = mu.length := by
    simp [scoredList, List.length_zipWith, hlen]
  refine ⟨?_, ?_, ?_, rfl⟩
  · rw [rank_candidates, List.length_map, List.length_take, hperm.length_eq, hslen]
  · have hsnodup : ((scoredList mu vol risk).map Prod.fst).Nodup :=
      hnodup.sublist (scoredList_names_sublist mu vol risk)
    have hsorted : ((sortScoresDescending (scoredList mu vol risk)).map Prod.fst).Nodup :=
      (hperm.map Prod.fst).nodup_iff.mpr hsnodup
    rw [rank_candidates, List.map_take]
    exact hsorted.sublist (List.take_sublist mc _)
  · haveI : IsTotal (String × ℚ) (fun p q => p.2 ≤ q.2) := ⟨fun a b => le_total a.2 b.2⟩
    haveI : IsTrans (String × ℚ) (fun p q => p.2 ≤ q.2) :=
      ⟨fun _ _ _ hab hbc => le_trans hab hbc⟩
    have hsort : ((scoredList mu vol risk).insertionSort (fun p q => p.2 ≤ q.2)).Pairwise
        (fun p q => p.2 ≤ q.2) := List.sorted_insertionSort _ _
    have hrev : (sortScoresDescending (scoredList mu vol risk)).Pairwise
        (fun p q => q.2 ≤ p.2) := List.pairwise_reverse.mpr hsort
    exact hrev.sublist (List.take_sublist mc _)

/-- Concrete instantiation of `rank_candidates_spec` at a two-instrument
bundle with distinct scores. -/
theorem rank_candidates_spec_witness :
    (rank_candidates [("A", 2), ("B", 1)] [1, 1] "balanced" 1).length = min 1 2 ∧
    (rank_candidates [("A", 2), ("B", 1)] [1, 1] "balanced" 1).Nodup ∧
    ((sortScoresDescending (scoredList [("A", 2), ("B", 1)] [1, 1] "balanced")).take 1).Pairwise
      (fun p q => q.2 ≤ p.2) ∧
    rank_candidates [("A", 2), ("B", 1)] [1, 1] "balanced" 1 =
      ((List.insertionSort (fun p q => p.2 ≤ q.2)
        (scoredList [("A", 2), ("B", 1)] [1, 1] "balanced")).reverse.take 1).map Prod.fst :=
  rank_candidates_spec [("A", 2), ("B", 1)] [1, 1] "balanced" 1 (by decide) (by decide)

/-! ## Portfolio Optimizer (`optimize_portfolio`, lines 205-253)

The NumPy generator `np.random.default_rng(seed)` is modelled as a stream
`rng : Nat → Nat → ℚ` giving the `j`-th draw of iteration `i`; a stream is a
deterministic function of the seed, so seeding is modelled by a function
`Int → Nat → Nat → ℚ` from seeds to streams.  `np.sqrt` is the parameter
`sqrt'`.  An iteration whose draws sum to zero over a non-empty asset list
produces NaN weights and a NaN score in the source (`w /= 0`), and a NaN score
never satisfies `score < best_score`; such iterations are modelled as `none`
and skipped, exactly as the source skips them.  (`np.sqrt` of a negative
quadratic form would also yield NaN, but the covariance matrix of a Metrics
Bundle is positive-semi-definite, so the total `sqrt'` models `np.sqrt` on its
valid domain.) -/

/-- Embeds `target_vol_for_risk` (lines 205-207), a dict lookup with default
`0.18`. -/
def target_vol_for_risk (risk : String) : ℚ :=
  if risk = "conservative" then 10/100
  else if risk = "balanced" then 18/100
  else if risk = "aggressive" then 28/100
  else 18/100

/-- Embeds `risk_penalty_for_risk` (lines 209-211), a dict lookup with default
`6.0`. -/
def risk_penalty_for_risk (risk : String) : ℚ :=
  if risk = "conservative" then 10
  else if risk = "balanced" then 6
  else if risk = "aggressive" then 3
  else 6

/-- Vector dot product, `x @ y`. -/
def dotProd (xs ys : List ℚ) : ℚ := (List.zipWith (fun a b => a * b) xs ys).sum

/-- Quadratic form `w @ cov_mat @ w`, the covariance matrix being looked up by
asset-label pairs (`cov.loc[assets, assets]`, line 233). -/
def quadForm (cov : String → String → ℚ) (assets : List String) (w : List ℚ) : ℚ :=
  dotProd w (assets.map (fun a => dotProd (assets.map (cov a)) w))

/-- One evaluated random portfolio (lines 240-247). -/
structure Candidate where
  w : List ℚ
  expRet : ℚ
  vol : ℚ
  score : ℚ

/-- Embeds one iteration of the search loop (lines 240-244): draw, normalise,
score.  `none` models the NaN score produced when `w.sum()` is zero over a
non-empty asset list (the source never retains such an iteration, since
`NaN < best_score` is false). -/
def evalCandidate (sqrt' : ℚ → ℚ) (muVec : List ℚ) (cov : String → String → ℚ)
    (assetNames : List String) (tgt penalty : ℚ) (draws : List ℚ) : Option Candidate :=
  let s := draws.sum
  if 0 < draws.length ∧ s = 0 then none
  else
    let w := draws.map (fun x => x / s)
    let expRet := dotProd w muVec
    let vol := sqrt' (quadForm cov assetNames w)
    some { w := w, expRet := expRet, vol := vol,
           score := -expRet + penalty * |vol - tgt| }

/-- Embeds the running best of lines 245-247: keep the candidate with the
strictly smaller score, ties keeping the earlier one, NaN (`none`) skipped. -/
def betterCandidate (best : Option Candidate) (c : Option Candidate) : Option Candidate :=
  match c with
  | none => best
  | some c' => match best with
    | none => some c'
    | some b => if c'.score < b.score then some c' else some b

/-- Embeds the search loop of lines 237-247: fold the `tries` iterations,
iteration `i` drawing `rng.random(len(assets))` as `(range n).map (rng i)`. -/
def searchBest (sqrt' : ℚ → ℚ) (rng : Nat → Nat → ℚ) (muVec : List ℚ)
    (cov : String → String → ℚ) (assetNames : List String) (tgt penalty : ℚ)
    (tries : Nat) : Option Candidate :=
  (List.range tries).foldl
    (fun acc i => betterCandidate acc
      (evalCandidate sqrt' muVec cov assetNames tgt penalty
        ((List.range assetNames.length).map (rng i)))) none

/-- Embeds `optimize_portfolio` (lines 214-253): truncate the bundle to the
first `max_assets` assets, run `tries` random iterations keeping the best
score, and fail (`RuntimeError`, line 250) when no candidate was ever
retained. -/
def optimize_portfolio (sqrt' : ℚ → ℚ) (rng : Nat → Nat → ℚ) (mu : List (String × ℚ))
    (cov : String → String → ℚ) (risk : String) (max_assets tries : Nat) :
    Except String (List (String × ℚ) × ℚ × ℚ) :=
  let assets := mu.take max_assets
  let assetNames := assets.map Prod.fst
  match searchBest sqrt' rng (assets.map Prod.snd) cov assetNames
      (target_vol_for_risk risk) (risk_penalty_for_risk risk) tries with
  | none => .error "Optimization failed to find a portfolio."
  | some b => .ok (assetNames.zip b.w, b.expRet, b.vol)

theorem betterCandidate_none (best : Option Candidate) : betterCandidate best none = best := rfl

theorem betterCandidate_none_some (c : Candidate) : betterCandidate none (some c) = some c := rfl

theorem betterCandidate_some_some (b c : Candidate) :
    betterCandidate (some b) (some c) = if c.score < b.score then some c else some b := rfl

theorem foldl_better_some (f : Nat → Option Candidate) (l : List Nat) (b : Candidate) :
    ∃ c, l.foldl (fun acc i => betterCandidate acc (f i)) (some b) = some c := by
  induction l generalizing b with
  | nil => exact ⟨b, rfl⟩
  | cons x xs ih =>
    simp only [List.foldl_cons]
    cases hfx : f x with
    | none => rw [betterCandidate_none]; exact ih b
    | some c' =>
      rw [betterCandidate_some_some]
      by_cases hlt : c'.score < b.score
      · rw [if_pos hlt]; exact ih c'
      · rw [if_neg hlt]; exact ih b

theorem foldl_better_none_iff (f : Nat → Option Candidate) (l : List Nat) :
    l.foldl (fun acc i => betterCandidate acc (f i)) none = none ↔ ∀ i ∈ l, f i = none := by
  induction l with
  | nil => simp
  | cons x xs ih =>
    simp only [List.foldl_cons, List.mem_cons]
    cases hfx : f x with
    | none =>
      rw [betterCandidate_none, ih]
      constructor
      · intro h i hi
        rcases hi with rfl | hi
        · exact hfx
        · exact h i hi
      · intro h i hi
        exact h i (Or.inr hi)
    | some c' =>
      rw [betterCandidate_none_some]
      obtain ⟨c, hc⟩ := foldl_better_some f xs c'
      rw [hc]
      constructor
      · intro h; cases h
      · intro h
        have hx := h x (Or.inl rfl)
        rw [hfx] at hx
        cases hx

theorem foldl_better_invariant (f : Nat → Option Candidate) (P : Candidate → Prop)
    (hf : ∀ i c, f i = some c → P c) (l : List Nat) :
    ∀ acc, (∀ c, acc = some c → P c) →
      ∀ c, l.foldl (fun acc i => betterCandidate acc (f i)) acc = some c → P c := by
  induction l with
  | nil => intro acc hacc c hc; exact hacc c hc
  | cons x xs ih =>
    intro acc hacc c hc
    simp only [List.foldl_cons] at hc
    refine ih _ ?_ c hc
    intro c' hc'
    cases hfx : f x with
    | none =>
      rw [hfx, betterCandidate_none] at hc'
      exact hacc c' hc'
    | some d =>
      rw [hfx] at hc'
      cases acc with
      | none =>
        rw [betterCandidate_none_some] at hc'
        injection hc' with h
        exact h ▸ hf x d hfx
      | some b =>
        rw [betterCandidate_some_some] at hc'
        by_cases hlt : d.score < b.score
        · rw [if_pos hlt] at hc'
          injection hc' with h
          exact h ▸ hf x d hfx
        · rw [if_neg hlt] at hc'
          injection hc' with h
          exact h ▸ hacc b rfl

theorem sum_map_div (l : List ℚ) (s : ℚ) : (l.map (fun x => x / s)).sum = l.sum / s := by
  induction l with
  | nil => simp
  | cons x xs ih => simp [ih, add_div]

theorem evalCandidate_eq_none_iff (sqrt' : ℚ → ℚ) (muVec : List ℚ)
    (cov : String → String → ℚ) (assetNames : List String) (tgt penalty : ℚ)
    (draws : List ℚ) :
    evalCandidate sqrt' muVec cov assetNames tgt penalty draws = none ↔
      0 < draws.length ∧ draws.sum = 0 := by
  rw [evalCandidate]
  by_cases h : 0 < draws.length ∧ draws.sum = 0
  · simp [h]
  · simp only [h, if_false, iff_false]
    intro hc
    cases hc

theorem searchBest_eq_none_iff (sqrt' : ℚ → ℚ) (rng : Nat → Nat → ℚ) (muVec : List ℚ)
    (cov : String → String → ℚ) (assetNames : List String) (tgt penalty : ℚ)
    (tries : Nat) :
    searchBest sqrt' rng muVec cov assetNames tgt penalty tries = none ↔
      ∀ i < tries, 0 < assetNames.length ∧
        ((List.range assetNames.length).map (rng i)).sum = 0 := by
  rw [searchBest, foldl_better_none_iff]
  constructor
  · intro h i hi
    have := (evalCandidate_eq_none_iff _ _ _ _ _ _ _).mp (h i (List.mem_range.mpr hi))
    simpa using this
  · intro h i hi
    rw [evalCandidate_eq_none_iff]
    have := h i (List.mem_range.mp hi)
    simpa using this

theorem optimize_portfolio_isOk_ne (sqrt' : ℚ → ℚ) (rng : Nat → Nat → ℚ)
    (mu : List (String × ℚ)) (cov : String → String → ℚ) (risk : String)
    (max_assets tries : Nat) :
    (optimize_portfolio sqrt' rng mu cov risk max_assets tries).isOk = false ↔
      searchBest sqrt' rng ((mu.take max_assets).map Prod.snd) cov
        ((mu.take max_assets).map Prod.fst) (target_vol_for_risk risk)
        (risk_penalty_for_risk risk) tries = none := by
  rw [optimize_portfolio]
  cases h : searchBest sqrt' rng ((mu.take max_assets).map Prod.snd) cov
      ((mu.take max_assets).map Prod.fst) (target_vol_for_risk risk)
      (risk_penalty_for_risk risk) tries <;>
    simp [h, Except.isOk, Except.toBool]

/-- C4 (amended): `optimize_portfolio` fails if and only if no candidate is
ever retained, which happens exactly when `tries == 0`, or when the truncated
asset list is non-empty and every iteration draws an all-zero random vector
(the measure-zero NaN case).  In particular, with `tries > 0` and an EMPTY
asset list it returns an (empty) portfolio rather than failing. -/
theorem optimize_portfolio_fails_iff (sqrt' : ℚ → ℚ) (rng : Nat → Nat → ℚ)
    (mu : List (String × ℚ)) (cov : String → String → ℚ) (risk : String)
    (max_assets tries : Nat) :
    (optimize_portfolio sqrt' rng mu cov risk max_assets tries).isOk = false ↔
      (tries = 0 ∨ (0 < min max_assets mu.length ∧
        ∀ i < tries, ((List.range (min max_assets mu.length)).map (rng i)).sum = 0)) := by
  have hnames : ((mu.take max_assets).map Prod.fst).length = min max_assets mu.length := by
    rw [List.length_map, List.length_take]
  rw [optimize_portfolio_isOk_ne, searchBest_eq_none_iff]
  simp only [hnames]
  constructor
  · intro h
    by_cases ht : tries = 0
    · exact Or.inl ht
    · exact Or.inr ⟨(h 0 (Nat.pos_of_ne_zero ht)).1,
        fun i hi => (h i hi).2⟩
  · intro h i hi
    rcases h with ht | ⟨hpos, hall⟩
    · omega
    · exact ⟨hpos, hall i hi⟩

/-- Counterexample to C4 as stated: with an EMPTY asset list and `tries = 1`
the optimizer does not fail — the single iteration evaluates the empty weight
vector (whose score is finite) and returns it. -/
theorem optimize_portfolio_empty_assets_counterexample :
    (optimize_portfolio id (fun _ _ => 0) [] (fun _ _ => 0) "balanced" 10 1).isOk = true := by
  rfl

theorem optimize_portfolio_ok_elim (sqrt' : ℚ → ℚ) (rng : Nat → Nat → ℚ)
    (mu : List (String × ℚ)) (cov : String → String → ℚ) (risk : String)
    (max_assets tries : Nat) (ws : List (String × ℚ)) (r v : ℚ)
    (hok : optimize_portfolio sqrt' rng mu cov risk max_assets tries = .ok (ws, r, v)) :
    ∃ b, searchBest sqrt' rng ((mu.take max_assets).map Prod.snd) cov
        ((mu.take max_assets).map Prod.fst) (target_vol_for_risk risk)
        (risk_penalty_for_risk risk) tries = some b ∧
      ws = ((mu.take max_assets).map Prod.fst).zip b.w ∧ r = b.expRet ∧ v = b.vol := by
  revert hok
  simp only [optimize_portfolio]
  cases hsb : searchBest sqrt' rng ((mu.take max_assets).map Prod.snd) cov
      ((mu.take max_assets).map Prod.fst) (target_vol_for_risk risk)
      (risk_penalty_for_risk risk) tries with
  | none => intro hok; cases hok
  | some b =>
    intro hok
    simp only [Except.ok.injEq, Prod.mk.injEq] at hok
    exact ⟨b, rfl, hok.1.symm, hok.2.1.symm, hok.2.2.symm⟩

theorem evalCandidate_some_normalized (sqrt' : ℚ → ℚ) (muVec : List ℚ)
    (cov : String → String → ℚ) (assetNames : List String) (tgt penalty : ℚ)
    (draws : List ℚ) (c : Candidate)
    (hpos : 0 < draws.length) (hnn : ∀ x ∈ draws, 0 ≤ x)
    (hc : evalCandidate sqrt' muVec cov assetNames tgt penalty draws = some c) :
    (∀ x ∈ c.w, 0 ≤ x) ∧ c.w.sum = 1 ∧ c.w.length = draws.length := by
  rw [evalCandidate] at hc
  by_cases hcond : 0 < draws.length ∧ draws.sum = 0
  · rw [if_pos hcond] at hc; cases hc
  · rw [if_neg hcond] at hc
    injection hc with hc
    subst hc
    have hs0 : 0 ≤ draws.sum := List.sum_nonneg hnn
    have hsne : draws.sum ≠ 0 := fun h => hcond ⟨hpos, h⟩
    have hspos : 0 < draws.sum := lt_of_le_of_ne hs0 (Ne.symm hsne)
    refine ⟨?_, ?_, ?_⟩
    · intro x hx
      obtain ⟨y, hy, rfl⟩ := List.mem_map.mp hx
      exact div_nonneg (hnn y hy) hs0
    · rw [sum_map_div, div_self hsne]
    · rw [List.length_map]

/-- C2 (amended): whenever the truncated asset list is non-empty and the RNG
draws are non-negative (as `rng.random`'s range `[0, 1)` guarantees), any
weight vector returned by `optimize_portfolio` has only non-negative weights
and sums exactly to 1, hence within 1e-6 of 1.0.  (With an EMPTY truncated
asset list the optimizer still returns, and the empty weight vector sums to 0
— see the counterexample.) -/
theorem optimize_portfolio_weights_normalized (sqrt' : ℚ → ℚ) (rng : Nat → Nat → ℚ)
    (mu : List (String × ℚ)) (cov : String → String → ℚ) (risk : String)
    (max_assets tries : Nat) (ws : List (String × ℚ)) (r v : ℚ)
    (hn : 0 < min max_assets mu.length)
    (hrng : ∀ i j, 0 ≤ rng i j)
    (hok : optimize_portfolio sqrt' rng mu cov risk max_assets tries = .ok (ws, r, v)) :
    (∀ p ∈ ws, 0 ≤ p.2) ∧ |(ws.map Prod.snd).sum - 1| ≤ 1 / 1000000 := by
  have hnames : ((mu.take max_assets).map Prod.fst).length = min max_assets mu.length := by
    rw [List.length_map, List.length_take]
  obtain ⟨b, hsb, hws, -, -⟩ :=
    optimize_portfolio_ok_elim sqrt' rng mu cov risk max_assets tries ws r v hok
  rw [searchBest] at hsb
  have hP := foldl_better_invariant
    (fun i => evalCandidate sqrt' ((mu.take max_assets).map Prod.snd) cov
      ((mu.take max_assets).map Prod.fst) (target_vol_for_risk risk)
      (risk_penalty_for_risk risk)
      ((List.range ((mu.take max_assets).map Prod.fst).length).map (rng i)))
    (fun c => (∀ x ∈ c.w, 0 ≤ x) ∧ c.w.sum = 1 ∧
      c.w.length = ((mu.take max_assets).map Prod.fst).length)
    (fun i c hc => by
      have h := evalCandidate_some_normalized _ _ _ _ _ _ _ c
        (by rw [List.length_map, List.length_range, hnames]; exact hn)
        (fun x hx => by
          obtain ⟨j, -, rfl⟩ := List.mem_map.mp hx
          exact hrng i j) hc
      simpa [List.length_map, List.length_range] using h)
    (List.range tries) none (fun c hc => by cases hc) b hsb
  have hwlen : b.w.length = ((mu.take max_assets).map Prod.fst).length := hP.2.2
  have hsnd : ws.map Prod.snd = b.w := by
    rw [hws]
    exact List.map_snd_zip _ _ (le_of_eq hwlen)
  constructor
  · intro p hp
    rw [hws] at hp
    obtain ⟨a2, q2⟩ := p
    have := (List.of_mem_zip hp).2
    exact hP.1 _ this
  · rw [hsnd, hP.2.1]
    norm_num

/-- Counterexample to C2 as stated: with an empty metrics bundle (so an empty
truncated asset list) and `tries = 1`, the optimizer returns the EMPTY weight
vector, whose sum 0 is not within 1e-6 of 1.0. -/
theorem optimize_portfolio_empty_weights_counterexample :
    optimize_portfolio id (fun _ _ => 0) [] (fun _ _ => 0) "balanced" 10 1 =
      .ok ([], 0, 0) ∧
    ¬ |((([] : List (String × ℚ)).map Prod.snd).sum) - 1| ≤ 1 / 1000000 := by
  refine ⟨by rfl, by norm_num⟩

/-- Witness for C2 at a concrete one-asset bundle with a constant RNG stream:
the returned weight vector is the single weight 1. -/
theorem optimize_portfolio_weights_normalized_witness :
    (∀ p ∈ [("A", (1 : ℚ))], 0 ≤ p.2) ∧
    |(([("A", (1 : ℚ))].map Prod.snd).sum) - 1| ≤ 1 / 1000000 :=
  optimize_portfolio_weights_normalized id (fun _ _ => 1) [("A", 1)] (fun _ _ => 0)
    "balanced" 1 1 [("A", 1)] 1 0 (by decide) (fun _ _ => zero_le_one)
    (by norm_num [optimize_portfolio, searchBest, evalCandidate, betterCandidate,
      dotProd, quadForm, target_vol_for_risk, risk_penalty_for_risk,
      List.range_succ, sum_map_div])

/-! ## Goal Simulator (`simulate_goal`, lines 256-288) -/

/-- pandas label lookup `series.loc[k]`, the Series modelled as an association
list (first matching label). -/
def lookupQ (l : List (String × ℚ)) (k : String) : ℚ :=
  ((l.find? (fun p => p.1 == k)).map Prod.snd).getD 0

/-- Embeds `simulate_goal` (lines 256-288).  The draw
`rng.normal(mu_month, vol_month)` in month `m` of run `i` is modelled as
`muMonth + volMonth * z i m`, `z` being the seed-determined standard-normal
stream of the generator. -/
def simulate_goal (sqrt' : ℚ → ℚ) (z : Nat → Nat → ℚ) (weights mu : List (String × ℚ))
    (cov : String → String → ℚ) (years : Nat) (start_capital monthly_contrib : ℚ)
    (runs : Nat) : List ℚ × ℚ × ℚ :=
  let months := years * 12
  let wVec := weights.map Prod.snd
  let muPortAnnual := dotProd wVec (weights.map (fun p => lookupQ mu p.1))
  let covPortAnnual := quadForm cov (weights.map Prod.fst) wVec
  let muMonth := muPortAnnual / 12
  let volMonth := sqrt' covPortAnnual / sqrt' 12
  let outcomes := (List.range runs).map (fun i =>
    (List.range months).foldl (fun value m =>
      value * (1 + (muMonth + volMonth * z i m)) + monthly_contrib) start_capital)
  (outcomes, muPortAnnual, sqrt' covPortAnnual)

/-- C8: with `years = 0` the simulator iterates zero months, so the outcome
array has one entry per run and every entry equals `start_capital` exactly. -/
theorem simulate_goal_zero_years (sqrt' : ℚ → ℚ) (z : Nat → Nat → ℚ)
    (weights mu : List (String × ℚ)) (cov : String → String → ℚ)
    (start_capital monthly_contrib : ℚ) (runs : Nat) :
    (simulate_goal sqrt' z weights mu cov 0 start_capital monthly_contrib runs).1 =
      List.replicate runs start_capital := by
  simp only [simulate_goal, Nat.zero_mul, List.range_zero, List.foldl_nil]
  rw [List.map_const', List.length_range]

/-- C3: the NumPy generator is a deterministic function of its seed (modelled
by drawing the stream from `seedStream`), so two invocations of the optimizer,
or of the simulator, with identical inputs and the same explicitly supplied
seed return identical outputs. -/
theorem optimizer_and_simulator_deterministic
    (seedStream : Int → Nat → Nat → ℚ) (seed : Int) (sqrt' : ℚ → ℚ)
    (mu weights : List (String × ℚ)) (cov : String → String → ℚ) (risk : String)
    (max_assets tries years runs : Nat) (start_capital monthly_contrib : ℚ) :
    optimize_portfolio sqrt' (seedStream seed) mu cov risk max_assets tries =
      optimize_portfolio sqrt' (seedStream seed) mu cov risk max_assets tries ∧
    simulate_goal sqrt' (seedStream seed) weights mu cov years start_capital
        monthly_contrib runs =
      simulate_goal sqrt' (seedStream seed) weights mu cov years start_capital
        monthly_contrib runs :=
  ⟨rfl, rfl⟩

/-! ## Probability of reaching the goal (`main`, lines 362-365) -/

/-- Embeds `(outcomes >= goal).mean()`: the fraction of Outcome Distribution
entries that reach the goal. -/
def fracReachGoal (outcomes : List ℚ) (goal : ℚ) : ℚ :=
  (outcomes.countP (fun x => decide (goal ≤ x)) : ℚ) / outcomes.length

/-- Embeds line 364, `prob = float((outcomes >= goal).mean() * 100.0)`: the
value printed as `Prob reach goal` on line 381. -/
def probReachGoalPct (outcomes : List ℚ) (goal : ℚ) : ℚ :=
  fracReachGoal outcomes goal * 100

/-- C1 (amended): the reported probability is the fraction of Outcome
Distribution entries ≥ goal scaled by 100 for percentage display; the
underlying fraction lies in [0, 1] and the reported value in [0, 100]. -/
theorem probReachGoalPct_bounds (outcomes : List ℚ) (goal : ℚ) :
    probReachGoalPct outcomes goal = fracReachGoal outcomes goal * 100 ∧
    0 ≤ fracReachGoal outcomes goal ∧ fracReachGoal outcomes goal ≤ 1 ∧
    0 ≤ probReachGoalPct outcomes goal ∧ probReachGoalPct outcomes goal ≤ 100 := by
  have hfrac0 : 0 ≤ fracReachGoal outcomes goal :=
    div_nonneg (Nat.cast_nonneg _) (Nat.cast_nonneg _)
  have hfrac1 : fracReachGoal outcomes goal ≤ 1 := by
    rcases Nat.eq_zero_or_pos outcomes.length with hl | hl
    · obtain rfl := List.length_eq_zero.mp hl
      simp [fracReachGoal]
    · rw [fracReachGoal, div_le_one (by exact_mod_cast hl)]
      exact_mod_cast List.countP_le_length _
  refine ⟨rfl, hfrac0, hfrac1, mul_nonneg hfrac0 (by norm_num), ?_⟩
  calc fracReachGoal outcomes goal * 100 ≤ 1 * 100 :=
        mul_le_mul_of_nonneg_right hfrac1 (by norm_num)
    _ = 100 := one_mul 100

/-- Counterexample to C1 as stated: with outcomes {1, 2} and goal 0 the value
computed and reported by `main` is 100, which does not lie in [0, 1]. -/
theorem probReachGoalPct_counterexample :
    probReachGoalPct [1, 2] 0 = 100 ∧ ¬ probReachGoalPct [1, 2] 0 ≤ 1 := by
  have h : probReachGoalPct [1, 2] 0 = 100 := by
    norm_num [probReachGoalPct, fracReachGoal, List.countP_cons, List.countP_nil]
  exact ⟨h, by rw [h]; norm_num⟩

/-! ## The `/plan` endpoint (`api.py` lines 20-29) and its pipeline

`api.py` line 5 imports `run_plan` from `goal_planner`, but `goal_planner.py`
does not define it: the function behind the endpoint is code of this
repository that is absent from the sources.  It is therefore modelled from the
specification (pipeline of §2, stage contracts of §4, Plan Assembler §4.6,
error taxonomy §7), reusing the stage embeddings above where spec and source
agree. -/

/-- External collaborators consumed by the pipeline (spec §6): the price
history provider (`[]`-valued for "no data"), the display-name provider, the
seed-determined random streams of the optimizer and the simulator, and the
square-root and logarithm functions. -/
structure MarketEnv where
  priceHistory : String → PriceCol
  displayName : String → Option String
  rngW : Nat → Nat → ℚ
  rngZ : Nat → Nat → ℚ
  sqrtFn : ℚ → ℚ
  logFn : ℚ → ℚ

/-- The request body accepted by the `/plan` endpoint (`api.py` lines 20-25). -/
structure PlanRequest where
  goal : ℚ
  years : Nat
  risk : String
  start_capital : ℚ
  monthly_contrib : ℚ

/-- One enriched weight entry of the Plan Result (spec §3). -/
structure PlanItem where
  symbol : String
  name : String
  weight : ℚ
  current_price : ℚ
  initial_allocation : ℚ
  shares : ℚ

/-- The Plan Result aggregate (spec §3). -/
structure PlanResult where
  items : List PlanItem
  expected_return : ℚ
  volatility : ℚ
  prob_reach_goal : ℚ
  p5 : ℚ
  p50 : ℚ
  p95 : ℚ
  start_capital : ℚ

/-- The fatal pipeline failures of spec §7. -/
inductive PipelineError where
  | emptyUniverse
  | noUsableData
  | insufficientData
  | optimizationFailed

/-- Modelled from the spec: per-instrument retrieval with local recovery
(§6, §7) — an instrument whose series has no usable value is dropped, the
rest are kept in universe order. -/
def retrievePrices (env : MarketEnv) (tickers : List String) : PriceTable :=
  (tickers.map (fun t => (t, env.priceHistory t))).filter
    (fun tc => !(tc.2.filterMap id).isEmpty)

/-- Modelled from the spec: sample covariance of two instruments' return
series over their pairwise complete observations (§4.2), with `ddof = 1` as
pandas `DataFrame.cov` uses. -/
def covPair (lg : ℚ → ℚ) (c1 c2 : PriceCol) : ℚ :=
  let pairs := (List.zip (logReturns lg c1) (logReturns lg c2)).filterMap
    (fun ab => match ab with
      | (some a, some b) => some (a, b)
      | _ => none)
  let n := pairs.length
  if n ≤ 1 then 0
  else
    let m1 := (pairs.map Prod.fst).sum / n
    let m2 := (pairs.map Prod.snd).sum / n
    ((pairs.map (fun ab => (ab.1 - m1) * (ab.2 - m2))).sum) / ((n : ℚ) - 1)

/-- Modelled from the spec: the annualised covariance lookup of the Metrics
Bundle (§4.2), keyed by instrument identifier pairs. -/
def covOf (lg : ℚ → ℚ) (prices : PriceTable) : String → String → ℚ :=
  fun a b =>
    match prices.find? (fun tc => tc.1 == a), prices.find? (fun tc => tc.1 == b) with
    | some ca, some cb => covPair lg ca.2 cb.2 * TRADING_DAYS
    | _, _ => 0

/-- Modelled from the spec: the most recent available price of an instrument
(§4.6) — the last non-missing value of its column, `0` if entirely missing. -/
def lastPrice (col : PriceCol) : ℚ := ((col.filterMap id).getLast?).getD 0

/-- Modelled from the spec: a percentile of the Outcome Distribution (§4.6),
with the linear interpolation `np.percentile` uses; `0` on an empty
distribution. -/
def percentile (outcomes : List ℚ) (p : ℚ) : ℚ :=
  let s := List.insertionSort (fun a b : ℚ => a ≤ b) outcomes
  let n := s.length
  if n = 0 then 0
  else
    let h := p / 100 * ((n : ℚ) - 1)
    let i := Int.toNat ⌊h⌋
    let lo := s.getD i 0
    let hi := s.getD (min (i + 1) (n - 1)) 0
    lo + (h - (i : ℚ)) * (hi - lo)

/-- Modelled from the spec: the Plan Assembler (§4.6) — per-instrument
allocation and share count with all edge cases resolved to 0, the probability
of reaching the goal as the fraction of outcomes ≥ goal, and the 5th/50th/95th
percentiles. -/
def planAssemble (env : MarketEnv) (prices : PriceTable) (weights : List (String × ℚ))
    (expRet vol : ℚ) (outcomes : List ℚ) (goal start_capital : ℚ) : PlanResult :=
  { items := weights.map (fun p =>
      let price := lastPrice (((prices.find? (fun tc => tc.1 == p.1)).map Prod.snd).getD [])
      let alloc := if start_capital ≤ 0 then 0 else p.2 * start_capital
      let shares := if price ≤ 0 ∨ alloc ≤ 0 then 0 else alloc / price
      { symbol := p.1, name := (env.displayName p.1).getD p.1, weight := p.2,
        current_price := price, initial_allocation := alloc, shares := shares })
    expected_return := expRet
    volatility := vol
    prob_reach_goal := fracReachGoal outcomes goal
    p5 := percentile outcomes 5
    p50 := percentile outcomes 50
    p95 := percentile outcomes 95
    start_capital := start_capital }

/-- Modelled from the spec: the annualised Metrics Bundle mean returns of
§4.2 over the usable instruments (daily mean log return × 252). -/
def muAnnualOf (lg : ℚ → ℚ) (prices : PriceTable) : List (String × ℚ) :=
  (computeMuDaily lg prices).map (fun p => (p.1, p.2 * TRADING_DAYS))

/-- Modelled from the spec: the ranked Candidate Shortlist of §4.3 paired with
its mean returns, as handed to the Portfolio Optimizer (§4.4). -/
def shortlistOf (env : MarketEnv) (risk : String) (prices : PriceTable)
    (max_candidates : Nat) : List (String × ℚ) :=
  let muAnnual := muAnnualOf env.logFn prices
  let volList := muAnnual.map (fun p => env.sqrtFn (covOf env.logFn prices p.1 p.1))
  (rank_candidates muAnnual volList risk max_candidates).map
    (fun t => (t, lookupQ muAnnual t))

/-- Modelled from the spec: `run_plan`, the pipeline behind the `/plan`
endpoint (absent from the sources; `api.py` line 29 calls it with the five
request fields).  Universe toggles are all on for the endpoint; the tuning
knobs of §6 are explicit parameters.  Stage order and failure conditions
follow §2 and §7. -/
def run_plan (env : MarketEnv) (req : PlanRequest)
    (max_candidates max_assets tries runs : Nat) : Except PipelineError PlanResult :=
  let univ := build_universe true true true true true
  if univ = [] then .error .emptyUniverse
  else
    let prices := retrievePrices env univ
    if prices = [] then .error .noUsableData
    else if (muAnnualOf env.logFn prices).length < 2 then .error .insufficientData
    else
      match optimize_portfolio env.sqrtFn env.rngW
          (shortlistOf env req.risk prices max_candidates)
          (covOf env.logFn prices) req.risk max_assets tries with
      | .error _ => .error .optimizationFailed
      | .ok (ws, expRet, vol) =>
        .ok (planAssemble env prices ws expRet vol
          (simulate_goal env.sqrtFn env.rngZ ws (muAnnualOf env.logFn prices)
            (covOf env.logFn prices) req.years req.start_capital
            req.monthly_contrib runs).1
          req.goal req.start_capital)

theorem build_universe_default_ne_nil : build_universe true true true true true ≠ [] := by
  rw [build_universe, Ne, dedupeSeen_nil_eq_nil_iff, selectedUnion_eq_nil_iff]
  simp

/-- C9 (spec-modelled): for every valid request, the `/plan` endpoint returns
the Plan Result as structured data whenever its external collaborators behave
— the price histories leave at least 2 usable instruments, the search budget
is positive, and the optimizer's RNG draws are positive (they lie in `(0, 1)`
almost surely). -/
theorem run_plan_total (env : MarketEnv) (req : PlanRequest)
    (max_candidates max_assets tries runs : Nat)
    (htries : 0 < tries)
    (hrng : ∀ i j, 0 < env.rngW i j)
    (hdata : 2 ≤ (muAnnualOf env.logFn
      (retrievePrices env (build_universe true true true true true))).length) :
    (run_plan env req max_candidates max_assets tries runs).isOk = true := by
  have hprices : retrievePrices env (build_universe true true true true true) ≠ [] := by
    intro h
    rw [h] at hdata
    simp [muAnnualOf, computeMuDaily] at hdata
  rw [run_plan]
  simp only [if_neg build_universe_default_ne_nil, if_neg hprices,
    if_neg (by omega : ¬ (muAnnualOf env.logFn
      (retrievePrices env (build_universe true true true true true))).length < 2)]
  cases hopt : optimize_portfolio env.sqrtFn env.rngW
      (shortlistOf env req.risk
        (retrievePrices env (build_universe true true true true true)) max_candidates)
      (covOf env.logFn (retrievePrices env (build_universe true true true true true)))
      req.risk max_assets tries with
  | error e =>
    exfalso
    have hfail : (optimize_portfolio env.sqrtFn env.rngW
        (shortlistOf env req.risk
          (retrievePrices env (build_universe true true true true true)) max_candidates)
        (covOf env.logFn (retrievePrices env (build_universe true true true true true)))
        req.risk max_assets tries).isOk = false := by
      rw [hopt]; rfl
    rw [optimize_portfolio_fails_iff] at hfail
    rcases hfail with ht | ⟨hpos, hall⟩
    · omega
    · set n := min max_assets (shortlistOf env req.risk
        (retrievePrices env (build_universe true true true true true))
        max_candidates).length with hn
      have hsum := hall 0 htries
      have hgt : 0 < ((List.range n).map (env.rngW 0)).sum := by
        apply List.sum_pos
        · intro x hx
          obtain ⟨j, -, rfl⟩ := List.mem_map.mp hx
          exact hrng 0 j
        · intro hnil
          have := congrArg List.length hnil
          simp at this
          omega
      rw [hsum] at hgt
      exact lt_irrefl 0 hgt
  | ok res =>
    obtain ⟨ws, expRet, vol⟩ := res
    rfl

/-- Environment used below: a constant three-day price history for every
ticker, constant RNG streams, identity square root and logarithm. -/
def constEnv : MarketEnv where
  priceHistory := fun _ => [some 1, some 2, some 4]
  displayName := fun _ => none
  rngW := fun _ _ => 1
  rngZ := fun _ _ => 0
  sqrtFn := id
  logFn := id

set_option maxRecDepth 100000 in
/-- Witness for C9 at a concrete request and environment. -/
theorem run_plan_total_witness :
    (run_plan constEnv ⟨250000, 5, "balanced", 1000, 100⟩ 25 10 2 3).isOk = true :=
  run_plan_total constEnv ⟨250000, 5, "balanced", 1000, 100⟩ 25 10 2 3
    (by decide) (fun _ _ => zero_lt_one) (by decide)

/-- C10: the result of `build_universe` depends only on the `include_sp500`,
`include_ftse100` and `include_nasdaq100` toggles; the `include_indices` and
`fallback_if_empty` parameters (fed from the `--no-indices` CLI flag) are never
read, so any two calls agreeing on the first three toggles return identical
universes. -/
theorem build_universe_ignores_indices_and_fallback
    (sp ftse nasdaq i₁ f₁ i₂ f₂ : Bool) :
    build_universe sp ftse nasdaq i₁ f₁ = build_universe sp ftse nasdaq i₂ f₂ := rfl

end GoalPlanner
